import Mathlib

/-!
Verification of a small memcached-style text-protocol cache server
(`src/main.rs`). Strings on the wire are modelled as byte lists
(`List Nat`, each element a byte value); the monotonic clock is modelled
as a `Nat` instant passed to each operation. Rust functions that can
panic (`unwrap`, out-of-bounds indexing/slicing) are modelled with a
three-way result `PResult`: `ok`, `err` (a returned `Err`), `panic`.
Executor paths that perform a `DashMap` write while the read guard from
`storage.get` on the same key is still live are modelled as `deadlock`:
the write blocks forever on its own shard lock, so the mutation never
completes and no response is written.
-/

/-- Bytes of an ASCII string literal. -/
def bs (s : String) : List Nat := s.data.map Char.toNat

/-- Result of a Rust function returning `Result` that may also panic. -/
inductive PResult (α : Type) where
  | ok (a : α)
  | err
  | panic
deriving DecidableEq, Repr

def PResult.map {α β : Type} (f : α → β) : PResult α → PResult β
  | .ok a => .ok (f a)
  | .err => .err
  | .panic => .panic

/-- Model of `str::split_once` with a single-byte pattern: split at the first
occurrence of byte `sep`; `none` when `sep` does not occur. -/
def splitOnceAt (sep : Nat) : List Nat → Option (List Nat × List Nat)
  | [] => none
  | b :: rest =>
    if b = sep then some ([], rest)
    else (splitOnceAt sep rest).map (fun p => (b :: p.1, p.2))

/-- Model of `str::split` with a one-byte-matching predicate: split at every
matching byte, keeping empty fragments (so the result is never empty). -/
def splitAllP (p : Nat → Bool) : List Nat → List (List Nat)
  | [] => [[]]
  | b :: rest =>
    if p b then [] :: splitAllP p rest
    else
      match splitAllP p rest with
      | [] => [[b]]
      | part :: parts => (b :: part) :: parts

/-- Model of `str::split_once("\r\n")`: split at the first occurrence of CR LF. -/
def splitOnceCrlf : List Nat → Option (List Nat × List Nat)
  | [] => none
  | [_] => none
  | b :: c :: rest =>
    if b = 13 ∧ c = 10 then some ([], rest)
    else (splitOnceCrlf (c :: rest)).map (fun p => (b :: p.1, p.2))

/-- ASCII whitespace bytes recognised by `char::is_whitespace`. -/
def isWsByte (b : Nat) : Bool :=
  b = 9 || b = 10 || b = 11 || b = 12 || b = 13 || b = 32

/-- Model of `str::split_whitespace`: split on whitespace, dropping empty fragments. -/
def splitWs (l : List Nat) : List (List Nat) :=
  (splitAllP isWsByte l).filter (fun part => part ≠ [])

def isDigitByte (b : Nat) : Bool := 48 ≤ b && b ≤ 57

def digitsToNat (acc : Nat) : List Nat → Option Nat
  | [] => some acc
  | b :: rest =>
    if isDigitByte b then digitsToNat (acc * 10 + (b - 48)) rest else none

/-- Model of `str::parse` for an unsigned integer type with exclusive upper bound
`bound`: an optional leading `+` sign, then one or more decimal digits,
failing on overflow. -/
def parseUInt (bound : Nat) (l : List Nat) : Option Nat :=
  let l := match l with
    | 43 :: rest => rest
    | _ => l
  match l with
  | [] => none
  | _ =>
    match digitsToNat 0 l with
    | some n => if n < bound then some n else none
    | none => none

def parseU16 : List Nat → Option Nat := parseUInt (2 ^ 16)
def parseU64 : List Nat → Option Nat := parseUInt (2 ^ 64)
def parseUsize : List Nat → Option Nat := parseUInt (2 ^ 64)

/-- The fields shared by all store-family commands (`struct Common`). -/
structure Common where
  name : List Nat
  key : List Nat
  flags : Nat
  exptime : Nat
  byte_count : Nat
  no_reply : Bool
  data_block : List Nat
deriving DecidableEq, Repr

/-- Model of `Common::from`: split the buffer on spaces; fewer than 5 parts is an
error; parse flags/exptime/byte_count (`?` propagates parse errors);
then index `parts[5]` (panics when only 5 parts), `split_once("\r\n")`
on it (`unwrap` panics when no CR LF), and slice the remainder to
`byte_count` bytes (panics when shorter). `no_reply` is set when the
text before the CR LF is non-empty. -/
def Common.fromData (data : List Nat) : PResult Common :=
  let parts := splitAllP (fun b => b = 32) data
  match parts with
  | p0 :: p1 :: p2 :: p3 :: p4 :: rest =>
    match parseU16 p2, parseU64 p3, parseUsize p4 with
    | some flags, some exptime, some byte_count =>
      match rest with
      | [] => .panic
      | p5 :: _ =>
        match splitOnceCrlf p5 with
        | none => .panic
        | some (nrtok, tail) =>
          if byte_count ≤ tail.length then
            .ok ⟨p0, p1, flags, exptime, byte_count, !nrtok.isEmpty,
                 tail.take byte_count⟩
          else .panic
    | _, _, _ => .err
  | _ => .err

/-- The fields of a `get` command (`struct Get`). -/
structure Get where
  name : List Nat
  key : List Nat
deriving DecidableEq, Repr

abbrev GetReq := Get

/-- Model of `Get::from`: split the buffer on whitespace and index `parts[0]`
and `parts[1]` (panics when fewer than two tokens). -/
def Get.fromData (data : List Nat) : PResult Get :=
  match splitWs data with
  | p0 :: p1 :: _ => .ok ⟨p0, p1⟩
  | _ => .panic

/-- The typed request (`enum Req`). -/
inductive Req where
  | Set (c : Common)
  | Get (g : GetReq)
  | Add (c : Common)
  | Replace (c : Common)
  | Append (c : Common)
  | Prepend (c : Common)
deriving DecidableEq, Repr

/-- Model of `Req::from`: take the text before the first space as the command
name (`split_once(" ").unwrap()` panics when the buffer has no space)
and dispatch on it; `append`/`prepend` are absent from the match and
fall through to the error arm. -/
def Req.fromData (data : List Nat) : PResult Req :=
  match splitOnceAt 32 data with
  | none => .panic
  | some (name, _) =>
    if name = bs "set" then (Common.fromData data).map Req.Set
    else if name = bs "get" then (Get.fromData data).map Req.Get
    else if name = bs "add" then (Common.fromData data).map Req.Add
    else if name = bs "replace" then (Common.fromData data).map Req.Replace
    else .err

/-- The stored value (`struct Value`). -/
structure Value where
  name : List Nat
  flags : Nat
  byte_count : Nat
  data_block : List Nat
deriving DecidableEq, Repr

abbrev ValueData := Value

/-- A store entry (`struct Entry`): a value plus an optional absolute
expiration instant. -/
structure Entry where
  data : ValueData
  expires_at : Option Nat
deriving DecidableEq, Repr

/-- The shared `DashMap<String, Entry>`, modelled as an association list
with at most one binding per key. -/
abbrev Store := List (List Nat × Entry)

/-- Model of `DashMap::get`. -/
def mapGet : Store → List Nat → Option Entry
  | [], _ => none
  | (k, e) :: rest, key => if k = key then some e else mapGet rest key

/-- Model of `DashMap::insert`: replace the binding for the key, or add one. -/
def mapInsert : Store → List Nat → Entry → Store
  | [], key, e => [(key, e)]
  | (k, e0) :: rest, key, e =>
    if k = key then (key, e) :: rest else (k, e0) :: mapInsert rest key e

/-- Model of `DashMap::remove`. -/
def mapRemove : Store → List Nat → Store
  | [], _ => []
  | (k, e) :: rest, key => if k = key then rest else (k, e) :: mapRemove rest key

/-- Model of `DashMap::contains_key`. -/
def mapContainsKey (s : Store) (key : List Nat) : Bool :=
  (mapGet s key).isSome

/-- The response (`enum Resp`). -/
inductive Resp where
  | Stored
  | NotStored
  | End
  | Value (v : ValueData)
deriving DecidableEq, Repr

/-- Model of `entry.expires_at.is_some_and(|e| e <= Instant::now())`. -/
def isExpiredAt (e : Entry) (now : Nat) : Bool :=
  match e.expires_at with
  | some t => decide (t ≤ now)
  | none => false

/-- Model of `fn store`: build the `Value` and `Entry` from the command
(`expires_at` is `none` when `exptime == 0`, else now + exptime), insert
into the map only when `exptime > 0`, and reply `Stored` unless
`no_reply`. -/
def store (storage : Store) (common : Common) (now : Nat) :
    Store × Option Resp :=
  let value : Value :=
    { name := common.key, flags := common.flags,
      byte_count := common.byte_count, data_block := common.data_block }
  let expires_at : Option Nat :=
    if common.exptime = 0 then none else some (now + common.exptime)
  let entry : Entry := { data := value, expires_at := expires_at }
  let storage1 :=
    if 0 < common.exptime then mapInsert storage common.key entry else storage
  (storage1, if !common.no_reply then some .Stored else none)

/-- Outcome of executing one request. `done` carries the updated store
and the optional response of the dispatch in `main`. `deadlock` models
the paths where the source performs a `DashMap` write (`remove` or
`insert`) on a key whose read guard (the `Ref` returned by
`storage.get`) is still live: the write blocks forever on the shard
lock it already holds for reading, so the mutation never completes, the
store is left as it was, and no response is ever written. -/
inductive ExecOut where
  | done (s : Store) (r : Option Resp)
  | deadlock (s : Store)
deriving DecidableEq, Repr

/-- The per-command dispatch in `main`: how one parsed request updates
the store and what optional response it produces — or where it
self-deadlocks. The `Get` arm holds the `Ref` guard from `storage.get`
across `storage.remove` (expired branch); the `Append`/`Prepend` arms
hold it across `fn store`, whose `insert` runs only when
`exptime > 0`. `Set` never reads first; `Add`'s store path only runs
when `get` returned `None` (no guard); `Replace` probes with
`contains_key`, which returns a plain `bool`. -/
def exec (storage : Store) (command : Req) (now : Nat) : ExecOut :=
  match command with
  | .Set common =>
    let sr := store storage common now
    .done sr.1 sr.2
  | .Get g =>
    match mapGet storage g.key with
    | some entry =>
      if isExpiredAt entry now then .deadlock storage
      else .done storage (some (.Value entry.data))
    | none => .done storage (some .End)
  | .Add common =>
    match mapGet storage common.key with
    | none =>
      let sr := store storage common now
      .done sr.1 sr.2
    | some _ => .done storage (some .NotStored)
  | .Replace common =>
    if mapContainsKey storage common.key then
      let sr := store storage common now
      .done sr.1 sr.2
    else .done storage (some .NotStored)
  | .Append common =>
    match mapGet storage common.key with
    | some entry =>
      if 0 < common.exptime then .deadlock storage
      else
        let sr := store storage
          { common with
              data_block := entry.data.data_block ++ common.data_block } now
        .done sr.1 sr.2
    | none => .done storage (some .NotStored)
  | .Prepend common =>
    match mapGet storage common.key with
    | some entry =>
      if 0 < common.exptime then .deadlock storage
      else
        let sr := store storage
          { common with
              data_block := common.data_block ++ entry.data.data_block } now
        .done sr.1 sr.2
    | none => .done storage (some .NotStored)

/-- The store as one request leaves it: unchanged when the task
deadlocked, since the blocked mutation never completes. -/
def outStore : ExecOut → Store
  | .done s _ => s
  | .deadlock s => s

/-- A UTF-8 continuation byte. -/
def isCont (b : Nat) : Bool := 128 ≤ b && b ≤ 191

/-- UTF-8 encoding of U+FFFD, the replacement character. -/
def REP : List Nat := [0xEF, 0xBF, 0xBD]

/-- Whether `c1` is a valid second byte after leading byte `b` of a
three-byte UTF-8 sequence. -/
def validSecondOf3 (b c1 : Nat) : Bool :=
  (b = 0xE0 && (0xA0 ≤ c1 && c1 ≤ 0xBF)) ||
  (0xE1 ≤ b && b ≤ 0xEC && isCont c1) ||
  (b = 0xED && (0x80 ≤ c1 && c1 ≤ 0x9F)) ||
  (0xEE ≤ b && isCont c1)

/-- Whether `c1` is a valid second byte after leading byte `b` of a
four-byte UTF-8 sequence. -/
def validSecondOf4 (b c1 : Nat) : Bool :=
  (b = 0xF0 && (0x90 ≤ c1 && c1 ≤ 0xBF)) ||
  (0xF1 ≤ b && b ≤ 0xF3 && isCont c1) ||
  (b = 0xF4 && (0x80 ≤ c1 && c1 ≤ 0x8F))

/-- One step of lossy UTF-8 decoding: given the first byte `b` and the
remaining bytes, return the bytes emitted for the sequence starting at
`b` (the sequence itself when valid, the replacement character
otherwise) and how many bytes beyond `b` the sequence consumed. An
invalid subpart consumes the leading byte plus its valid continuation
prefix, per the maximal-subpart rule of `String::from_utf8_lossy`. -/
def utf8Step (b : Nat) (rest : List Nat) : List Nat × Nat :=
  if b < 0x80 then ([b], 0)
  else if 0xC2 ≤ b && b ≤ 0xDF then
    match rest with
    | [] => (REP, 0)
    | c1 :: _ => if isCont c1 then ([b, c1], 1) else (REP, 0)
  else if 0xE0 ≤ b && b ≤ 0xEF then
    match rest with
    | [] => (REP, 0)
    | c1 :: rest1 =>
      if validSecondOf3 b c1 then
        match rest1 with
        | [] => (REP, 1)
        | c2 :: _ => if isCont c2 then ([b, c1, c2], 2) else (REP, 1)
      else (REP, 0)
  else if 0xF0 ≤ b && b ≤ 0xF4 then
    match rest with
    | [] => (REP, 0)
    | c1 :: rest1 =>
      if validSecondOf4 b c1 then
        match rest1 with
        | [] => (REP, 1)
        | c2 :: rest2 =>
          if isCont c2 then
            match rest2 with
            | [] => (REP, 2)
            | c3 :: _ => if isCont c3 then ([b, c1, c2, c3], 3) else (REP, 2)
          else (REP, 1)
      else (REP, 0)
  else (REP, 0)

/-- Fuel-driven worker for lossy UTF-8 conversion: each step consumes at
least the leading byte, so fuel equal to the input length never runs
out. Structural recursion on the fuel keeps the function
kernel-reducible. -/
def utf8LossyAux : Nat → List Nat → List Nat
  | _, [] => []
  | 0, _ :: _ => []
  | fuel + 1, b :: rest =>
    (utf8Step b rest).1 ++ utf8LossyAux fuel (rest.drop (utf8Step b rest).2)

/-- Model of `String::from_utf8_lossy` followed by re-encoding: valid
UTF-8 sequences are copied through unchanged; each maximal invalid
subpart (including an incomplete sequence at the end of input) is
replaced by the replacement character. -/
def utf8Lossy (l : List Nat) : List Nat := utf8LossyAux l.length l

/-- Decimal digits of an unsigned integer, as rendered by `format!`. -/
def natDigits (n : Nat) : List Nat := (Nat.toDigits 10 n).map Char.toNat

/-- Model of `Value::to_string`:
`format!("VALUE {} {} {}\r\n{}\r\n", name, flags, byte_count,
from_utf8_lossy(&data_block))`, as wire bytes. -/
def Value.toWire (v : Value) : List Nat :=
  bs "VALUE " ++ v.name ++ [32] ++ natDigits v.flags ++ [32] ++
    natDigits v.byte_count ++ [13, 10] ++ utf8Lossy v.data_block ++ [13, 10]

/-- Model of `Resp::to_string`, as wire bytes. -/
def Resp.toWire : Resp → List Nat
  | .Stored => bs "STORED\r\n"
  | .NotStored => bs "NOT_STORED\r\n"
  | .End => bs "END\r\n"
  | .Value v => Value.toWire v

/-- The bytes the connection shell writes for one request:
`if let Some(resp) = resp { write_all(resp.to_string()) }`. -/
def respBytes : Option Resp → List Nat
  | none => []
  | some r => Resp.toWire r

/-- The bytes one executed request puts on the response stream: nothing
when the response is suppressed, and nothing when the task deadlocked
before the write was reached. -/
def outBytes : ExecOut → List Nat
  | .done _ r => respBytes r
  | .deadlock _ => []

/-- The `Entry` that `fn store` builds from a command at instant `now`. -/
def mkEntry (c : Common) (now : Nat) : Entry :=
  { data := { name := c.key, flags := c.flags, byte_count := c.byte_count,
              data_block := c.data_block },
    expires_at := if c.exptime = 0 then none else some (now + c.exptime) }

/-! Concrete fixtures used by counterexamples and witnesses. -/

/-- The parsed command of `set foo 5 0 3 \r\nbar\r\n`. -/
def cFoo : Common := ⟨bs "set", bs "foo", 5, 0, 3, false, bs "bar"⟩

/-- The parsed command of `get foo\r\n`. -/
def gFoo : Get := ⟨bs "get", bs "foo"⟩

/-- The value stored for key `foo`: flags 5, data `bar`. -/
def vFoo : Value := ⟨bs "foo", 5, 3, bs "bar"⟩

/-- An entry for `foo` with no expiration. -/
def eFoo : Entry := ⟨vFoo, none⟩

/-- A store holding `foo` with no expiration. -/
def storeFoo : Store := [(bs "foo", eFoo)]

/-- The parsed command of `append foo 0 0 3 \r\nbaz\r\n`. -/
def aFoo : Common := ⟨bs "append", bs "foo", 0, 0, 3, false, bs "baz"⟩

/-- An entry for `foo` expiring at instant 5. -/
def eExp : Entry := ⟨vFoo, some 5⟩

/-- A store holding `foo` with expiration instant 5. -/
def storeExp : Store := [(bs "foo", eExp)]

/-- An `add foo` command (flags 1, data `qux`), replies wanted. -/
def cAdd : Common := ⟨bs "add", bs "foo", 1, 0, 3, false, bs "qux"⟩

/-- An `add foo` command with `no_reply` set. -/
def cNr : Common := ⟨bs "add", bs "foo", 1, 0, 3, true, bs "qux"⟩

/-- An `add foo` command with `exptime = 9`. -/
def cAddExp : Common := ⟨bs "add", bs "foo", 7, 9, 3, false, bs "qux"⟩

/-- A value whose data block is the single non-UTF-8 byte 0xFF. -/
def vBad : Value := ⟨bs "k", 0, 1, [0xFF]⟩

/-- An entry for `foo` expiring exactly at instant 7. -/
def eBnd : Entry := ⟨vFoo, some 7⟩

/-- A store holding `foo` with expiration instant 7. -/
def storeBnd : Store := [(bs "foo", eBnd)]

/-- The lossy-conversion worker leaves ASCII bytes unchanged when given
enough fuel. -/
theorem utf8LossyAux_ascii (fuel : Nat) (l : List Nat)
    (hf : l.length ≤ fuel) (h : ∀ b ∈ l, b < 128) :
    utf8LossyAux fuel l = l := by
  induction fuel generalizing l with
  | zero =>
    cases l with
    | nil => rfl
    | cons b rest => simp at hf
  | succ f ih =>
    cases l with
    | nil => rfl
    | cons b rest =>
      have hb : b < 128 := h b (List.mem_cons_self b rest)
      have h1 : utf8Step b rest = ([b], 0) := by simp [utf8Step, hb]
      have h2 := ih rest (Nat.le_of_succ_le_succ hf)
        (fun x hx => h x (List.mem_cons_of_mem b hx))
      simp [utf8LossyAux, h1, h2]

/-- Lossy UTF-8 conversion leaves a block of ASCII bytes unchanged. -/
theorem utf8Lossy_ascii (l : List Nat) (h : ∀ b ∈ l, b < 128) :
    utf8Lossy l = l :=
  utf8LossyAux_ascii l.length l (Nat.le_refl _) h

/-- C1: the claimed set/get round-trip fails in the code. A valid `set`
with `exptime = 0` parses and replies `STORED`, but `fn store` inserts
into the map only when `exptime > 0`, so the store stays empty and a
subsequent `get` of the key returns `END` instead of the stored flags
and data block. -/
theorem set_exptime_zero_roundtrip_fails :
    Req.fromData (bs "set foo 5 0 3 \r\nbar\r\n") = .ok (.Set cFoo) ∧
    exec [] (.Set cFoo) 0 = .done [] (some .Stored) ∧
    exec (outStore (exec [] (.Set cFoo) 0)) (.Get gFoo) 0 =
      .done [] (some .End) := by
  decide

/-- C2: `Req::from` has no match arms for `append` and `prepend`; both
well-formed buffers fall through to the catch-all arm and return a parse
error, so the parser never produces the `Append`/`Prepend` commands the
executor is written to handle. -/
theorem parser_rejects_append_prepend :
    Req.fromData (bs "append foo 0 0 3 \r\nbaz\r\n") = .err ∧
    Req.fromData (bs "prepend foo 0 0 3 \r\nbaz\r\n") = .err := by
  decide

/-- C3 counterexample: an `add` with `no_reply = true` on a key already
present replies `NOT_STORED` — bytes are written to the response stream
even though the claim says a noreply store-family request writes none. -/
theorem noreply_failure_writes_bytes :
    outBytes (exec storeFoo (.Add cNr) 0) = bs "NOT_STORED\r\n" ∧
    outBytes (exec storeFoo (.Add cNr) 0) ≠ [] := by
  decide

/-- C3 amended: with `no_reply` set, no bytes are written only on the
paths that reach `fn store`'s reply suppression (`set` always; `add` on
an absent key; `replace` on a present key; `append`/`prepend` on a
present key with `exptime = 0`) and on the `append`/`prepend` paths that
self-deadlock before writing (`exptime > 0` on a present key); the
`NotStored` failure paths of add/replace/append/prepend still reply
`NOT_STORED` regardless of `no_reply`. -/
theorem noreply_suppresses_store_path_only (storage : Store) (c : Common)
    (now : Nat) (h : c.no_reply = true) :
    exec storage (.Set c) now =
      .done (if 0 < c.exptime then mapInsert storage c.key (mkEntry c now)
             else storage) none ∧
    exec storage (.Add c) now =
      (match mapGet storage c.key with
       | none =>
         .done (if 0 < c.exptime then mapInsert storage c.key (mkEntry c now)
                else storage) none
       | some _ => .done storage (some .NotStored)) ∧
    exec storage (.Replace c) now =
      (if mapContainsKey storage c.key then
         .done (if 0 < c.exptime then mapInsert storage c.key (mkEntry c now)
                else storage) none
       else .done storage (some .NotStored)) ∧
    exec storage (.Append c) now =
      (match mapGet storage c.key with
       | none => .done storage (some .NotStored)
       | some _ =>
         if 0 < c.exptime then .deadlock storage
         else .done storage none) ∧
    exec storage (.Prepend c) now =
      (match mapGet storage c.key with
       | none => .done storage (some .NotStored)
       | some _ =>
         if 0 < c.exptime then .deadlock storage
         else .done storage none) := by
  refine ⟨?_, ?_, ?_, ?_, ?_⟩
  · by_cases hx : 0 < c.exptime <;> simp [exec, store, h, mkEntry, hx]
  · cases hm : mapGet storage c.key <;>
      by_cases hx : 0 < c.exptime <;> simp [exec, store, h, hm, mkEntry, hx]
  · cases hc : mapContainsKey storage c.key <;>
      by_cases hx : 0 < c.exptime <;> simp [exec, store, h, hc, mkEntry, hx]
  · cases hm : mapGet storage c.key <;>
      by_cases hx : 0 < c.exptime <;> simp [exec, store, h, hm, hx]
  · cases hm : mapGet storage c.key <;>
      by_cases hx : 0 < c.exptime <;> simp [exec, store, h, hm, hx]

/-- C3 amended, instantiated: concrete no-reply commands against a store
holding `foo` exercise both the silent store path and the `NOT_STORED`
failure path. -/
theorem noreply_suppresses_store_path_only_witness :
    exec storeFoo (.Set cNr) 0 =
      .done (if 0 < cNr.exptime then mapInsert storeFoo cNr.key (mkEntry cNr 0)
             else storeFoo) none ∧
    exec storeFoo (.Add cNr) 0 =
      (match mapGet storeFoo cNr.key with
       | none =>
         .done (if 0 < cNr.exptime then mapInsert storeFoo cNr.key (mkEntry cNr 0)
                else storeFoo) none
       | some _ => .done storeFoo (some .NotStored)) ∧
    exec storeFoo (.Replace cNr) 0 =
      (if mapContainsKey storeFoo cNr.key then
         .done (if 0 < cNr.exptime then mapInsert storeFoo cNr.key (mkEntry cNr 0)
                else storeFoo) none
       else .done storeFoo (some .NotStored)) ∧
    exec storeFoo (.Append cNr) 0 =
      (match mapGet storeFoo cNr.key with
       | none => .done storeFoo (some .NotStored)
       | some _ =>
         if 0 < cNr.exptime then .deadlock storeFoo
         else .done storeFoo none) ∧
    exec storeFoo (.Prepend cNr) 0 =
      (match mapGet storeFoo cNr.key with
       | none => .done storeFoo (some .NotStored)
       | some _ =>
         if 0 < cNr.exptime then .deadlock storeFoo
         else .done storeFoo none) :=
  noreply_suppresses_store_path_only storeFoo cNr 0 rfl

/-- C4: append on a present key concatenates the data blocks but then
passes the incoming command's flags, exptime and byte_count to
`fn store`; with `exptime = 0` the insert is skipped entirely, so the
store is unchanged and the next `get foo` still answers
`VALUE foo 5 3` / `bar` — not `VALUE foo 5 6` / `barbaz` as claimed. -/
theorem append_does_not_update_store :
    exec storeFoo (.Append aFoo) 0 = .done storeFoo (some .Stored) ∧
    exec storeFoo (.Get gFoo) 0 = .done storeFoo (some (.Value vFoo)) ∧
    outBytes (exec storeFoo (.Get gFoo) 0) =
      bs "VALUE foo 5 3\r\nbar\r\n" := by
  decide

/-- C5: parsing is not total: a buffer with no space panics in
`Req::from` (`split_once(" ").unwrap()`), a `get` with no key panics on
`parts[1]`, a store command line without CRLF panics on
`split_once("\r\n").unwrap()`, and a data block shorter than the
declared byte_count panics on slicing — none of these are reported as a
parse error. -/
theorem parsing_panics_on_malformed :
    Req.fromData (bs "quit") = .panic ∧
    Req.fromData (bs "get \r\n") = .panic ∧
    Req.fromData (bs "set k 0 0 3 abc") = .panic ∧
    Req.fromData (bs "set k 0 0 9 \r\nabc\r\n") = .panic := by
  decide

/-- C6: the lazy-eviction half of the claim is false of the program: on
a `get` of a present-but-expired entry, `main` calls `storage.remove`
while the `Ref` guard from `storage.get` on the same key is still live —
a guaranteed same-shard self-deadlock — so the entry is never removed
and `END` is never written. The other paths behave as claimed: an
unexpired entry is returned as a clone of its value with the store
unchanged, and an absent key yields `END` (so an expired value is indeed
never returned, but by hanging, not by eviction). -/
theorem get_expired_deadlocks :
    isExpiredAt eExp 10 = true ∧
    exec storeExp (.Get gFoo) 10 = .deadlock storeExp ∧
    outBytes (exec storeExp (.Get gFoo) 10) = [] ∧
    exec storeFoo (.Get gFoo) 0 = .done storeFoo (some (.Value vFoo)) ∧
    exec [] (.Get gFoo) 0 = .done [] (some .End) := by
  decide

/-- C7 counterexample: an `add` at instant 10 on a key whose entry
expired at instant 5 returns `NOT_STORED` and inserts nothing, where the
claim requires an add on an expired key to insert and return `STORED`. -/
theorem add_on_expired_key_not_stored :
    isExpiredAt eExp 10 = true ∧
    exec storeExp (.Add cAddExp) 10 = .done storeExp (some .NotStored) := by
  decide

/-- C7 amended: `add` checks only presence, never expiry: on any present
key — expired or not — it returns `NotStored` and leaves the store
unchanged; on an absent key it behaves as `fn store`: replies `Stored`
unless `no_reply`, and inserts the entry only when `exptime > 0`. -/
theorem add_checks_presence_only (storage : Store) (c : Common) (now : Nat) :
    (∀ e, mapGet storage c.key = some e →
       exec storage (.Add c) now = .done storage (some .NotStored)) ∧
    (mapGet storage c.key = none →
       exec storage (.Add c) now =
         .done (if 0 < c.exptime then mapInsert storage c.key (mkEntry c now)
                else storage)
               (if c.no_reply then none else some .Stored)) := by
  constructor
  · intro e he; simp [exec, he]
  · intro h0
    by_cases hx : 0 < c.exptime <;> cases hn : c.no_reply <;>
      simp [exec, store, h0, mkEntry, hn, hx]

/-- C7 amended, instantiated: a concrete add on a present key returns
`NOT_STORED` unchanged; a concrete add on an absent key with
`exptime = 9` inserts and returns `STORED`. -/
theorem add_checks_presence_only_witness :
    exec storeFoo (.Add cAdd) 0 = .done storeFoo (some .NotStored) ∧
    exec [] (.Add cAddExp) 10 =
      .done [(bs "foo", mkEntry cAddExp 10)] (some .Stored) :=
  ⟨(add_checks_presence_only storeFoo cAdd 0).1 eFoo (by decide),
   ((add_checks_presence_only [] cAddExp 10).2 (by decide)).trans
     (by decide)⟩

/-- C8 counterexample: the trailing token `xyzzy` is not the literal
`noreply`, yet the command parses with `no_reply = true`, because the
code only tests that the text before the CRLF is non-empty. -/
theorem no_reply_set_by_any_token :
    Common.fromData (bs "set hello 0 0 5 xyzzy\r\nhello\r\n") =
      .ok ⟨bs "set", bs "hello", 0, 0, 5, true, bs "hello"⟩ := by
  decide

/-- C8 amended: whenever `Common::from` succeeds, the buffer splits on
spaces into at least six fields, the sixth contains a CRLF, and
`no_reply` is true exactly when the text before that CRLF is non-empty —
any non-empty token counts, not only the literal `noreply`; with no
trailing token `no_reply` is false. -/
theorem no_reply_iff_nonempty_token (data : List Nat) (c : Common)
    (h : Common.fromData data = .ok c) :
    ∃ p0 p1 p2 p3 p4 p5 tl nr db,
      splitAllP (fun b => b = 32) data =
        p0 :: p1 :: p2 :: p3 :: p4 :: p5 :: tl ∧
      splitOnceCrlf p5 = some (nr, db) ∧
      c.no_reply = !nr.isEmpty := by
  unfold Common.fromData at h
  rcases hparts : splitAllP (fun b => b = 32) data with
    _ | ⟨p0, _ | ⟨p1, _ | ⟨p2, _ | ⟨p3, _ | ⟨p4, _ | ⟨p5, tl⟩⟩⟩⟩⟩⟩
  · rw [hparts] at h; simp at h
  · rw [hparts] at h; simp at h
  · rw [hparts] at h; simp at h
  · rw [hparts] at h; simp at h
  · rw [hparts] at h; simp at h
  · rw [hparts] at h
    rcases hf : parseU16 p2 with _ | f <;>
      rcases he : parseU64 p3 with _ | et <;>
      rcases hb : parseUsize p4 with _ | bc <;>
      simp only [hf, he, hb] at h <;> simp at h
  · rw [hparts] at h
    rcases hf : parseU16 p2 with _ | f <;>
      rcases he : parseU64 p3 with _ | et <;>
      rcases hb : parseUsize p4 with _ | bc <;>
      simp only [hf, he, hb] at h <;> try simp at h
    rcases hc : splitOnceCrlf p5 with _ | ⟨nr, db⟩
    · simp only [hc] at h; simp at h
    · simp only [hc] at h
      split at h
      · refine ⟨p0, p1, p2, p3, p4, p5, tl, nr, db, by simp [hparts], hc, ?_⟩
        injection h with h1
        rw [← h1]
      · simp at h

/-- C8 amended, instantiated at the `noreply` test vector. -/
theorem no_reply_iff_nonempty_token_witness :
    ∃ p0 p1 p2 p3 p4 p5 tl nr db,
      splitAllP (fun b => b = 32)
          (bs "set hello 0 0 5 noreply\r\nhello\r\n") =
        p0 :: p1 :: p2 :: p3 :: p4 :: p5 :: tl ∧
      splitOnceCrlf p5 = some (nr, db) ∧
      (Common.mk (bs "set") (bs "hello") 0 0 5 true
        (bs "hello")).no_reply = !nr.isEmpty :=
  no_reply_iff_nonempty_token (bs "set hello 0 0 5 noreply\r\nhello\r\n")
    ⟨bs "set", bs "hello", 0, 0, 5, true, bs "hello"⟩ (by decide)

/-- C9 counterexample: a stored data block consisting of the single byte
0xFF is not written byte-for-byte: the encoder passes the block through
lossy UTF-8 conversion and emits the replacement character bytes
EF BF BD instead. -/
theorem value_render_not_raw :
    Resp.toWire (.Value vBad) ≠
      bs "VALUE k 0 1\r\n" ++ [0xFF] ++ bs "\r\n" ∧
    Resp.toWire (.Value vBad) =
      bs "VALUE k 0 1\r\n" ++ [0xEF, 0xBF, 0xBD] ++ bs "\r\n" := by
  decide

/-- C9 amended: `Stored`/`NotStored`/`End` render as `STORED`,
`NOT_STORED` and `END` lines, and `Found(value)` renders the VALUE
header with decimal flags and byte_count followed by the data block
passed through lossy UTF-8 conversion — byte-for-byte only when the
block is valid UTF-8, in particular for ASCII blocks. -/
theorem encoder_renders_outcomes (v : Value)
    (h : ∀ b ∈ v.data_block, b < 128) :
    Resp.toWire (.Value v) =
      bs "VALUE " ++ v.name ++ [32] ++ natDigits v.flags ++ [32] ++
        natDigits v.byte_count ++ [13, 10] ++ v.data_block ++ [13, 10] ∧
    Resp.toWire .Stored = bs "STORED\r\n" ∧
    Resp.toWire .NotStored = bs "NOT_STORED\r\n" ∧
    Resp.toWire .End = bs "END\r\n" := by
  refine ⟨?_, rfl, rfl, rfl⟩
  simp [Resp.toWire, Value.toWire, utf8Lossy_ascii v.data_block h]

/-- C9 amended, instantiated at the ASCII value for `foo`. -/
theorem encoder_renders_outcomes_witness :
    Resp.toWire (.Value vFoo) =
      bs "VALUE " ++ vFoo.name ++ [32] ++ natDigits vFoo.flags ++ [32] ++
        natDigits vFoo.byte_count ++ [13, 10] ++ vFoo.data_block ++
        [13, 10] ∧
    Resp.toWire .Stored = bs "STORED\r\n" ∧
    Resp.toWire .NotStored = bs "NOT_STORED\r\n" ∧
    Resp.toWire .End = bs "END\r\n" :=
  encoder_renders_outcomes vFoo (by decide)

/-- C10: the boundary comparison really is inclusive — the code uses
`e <= Instant::now()`, so an entry whose expiration equals the current
instant (here instant 7) takes the expired branch while one instant
earlier its value is still served — but the expired branch then
self-deadlocks in `storage.remove` under the live `Ref` guard instead
of removing the entry and returning `END` as the claim states. -/
theorem expiry_boundary_deadlocks :
    isExpiredAt eBnd 7 = true ∧
    isExpiredAt eBnd 6 = false ∧
    exec storeBnd (.Get gFoo) 7 = .deadlock storeBnd ∧
    outBytes (exec storeBnd (.Get gFoo) 7) = [] ∧
    exec storeBnd (.Get gFoo) 6 = .done storeBnd (some (.Value vFoo)) := by
  decide
